import Mathlib

/-!
Verification of the BibleReflection serverless core: the job store and its
generation workflow (`netlify/functions/reflectionStatus.js`), the fixed-window
rate limiter (`checkRateLimit`), the input sanitizer (`sanitizeInput`,
`validateVerses`) and the retry/backoff loops wrapping the external API calls
(`reflectionStatus.js` `generateReflection` and `generateReflection.js`
`handleVerseSearch`).

Strings manipulated by the sanitizer are modelled as `List Char`; JavaScript
values flowing through the validators are modelled by the inductive `JsValue`;
timestamps are modelled as `Int` milliseconds.
-/

namespace BibleReflection

/-- Model of a JavaScript value as seen by the validation code:
`typeof`, truthiness and field access are all the code inspects. -/
inductive JsValue where
  | null
  | undef
  | bool (b : Bool)
  | num (n : Int)
  | str (s : List Char)
  | arr (xs : List JsValue)
  | obj (fields : List (String × JsValue))

namespace JsValue

/-- JavaScript truthiness for the values of our model
(`NaN` is not modelled; numbers are integral). -/
def truthy : JsValue → Bool
  | .null => false
  | .undef => false
  | .bool b => b
  | .num n => n != 0
  | .str s => !s.isEmpty
  | .arr _ => true
  | .obj _ => true

/-- `typeof v === 'object'` (true for `null`, arrays and plain objects). -/
def typeofObject : JsValue → Bool
  | .null => true
  | .arr _ => true
  | .obj _ => true
  | _ => false

/-- `typeof v === 'string'`. -/
def typeofString : JsValue → Bool
  | .str _ => true
  | _ => false

/-- Property access `v[name]`: `undefined` on anything without that field
(arrays in this model carry no named properties). -/
def getField (v : JsValue) (name : String) : JsValue :=
  match v with
  | .obj fields =>
    match fields.lookup name with
    | some w => w
    | none => .undef
  | _ => .undef

end JsValue

/-- The whitespace characters removed by JavaScript `String.prototype.trim`
(the subset relevant to this code base). -/
def jsWhitespace (c : Char) : Bool :=
  c = ' ' || c = '\t' || c = '\n' || c = '\r'

/-- `String.prototype.trim`: drop leading and trailing whitespace. -/
def jsTrim (s : List Char) : List Char :=
  ((s.dropWhile jsWhitespace).reverse.dropWhile jsWhitespace).reverse

/-- `sanitizeInput(input, maxLength)` from `reflectionStatus.js` lines 47-52:
non-string input yields `''`; otherwise `input.trim().substring(0, maxLength)`. -/
def sanitizeInput (input : JsValue) (maxLength : Nat := 1000) : List Char :=
  match input with
  | .str s => (jsTrim s).take maxLength
  | _ => []

/-- A validated verse as produced by `validateVerses`. -/
structure Verse where
  reference : List Char
  text : List Char
  deriving DecidableEq

/-- The filter predicate of `validateVerses`:
`verse && typeof verse === 'object' && typeof verse.reference === 'string'
&& typeof verse.text === 'string'`. -/
def isValidVerse (v : JsValue) : Bool :=
  v.truthy && v.typeofObject
    && (v.getField "reference").typeofString
    && (v.getField "text").typeofString

/-- The map step of `validateVerses`: sanitize the two fields with their
independent caps (100 for the reference, 1000 for the text). -/
def mkVerse (v : JsValue) : Verse :=
  { reference := sanitizeInput (v.getField "reference") 100
    text := sanitizeInput (v.getField "text") 1000 }

/-- `validateVerses(verses, maxVerses)` from `reflectionStatus.js` lines 55-72:
non-array input yields `[]`; otherwise filter, map, `slice(0, maxVerses)`. -/
def validateVerses (verses : JsValue) (maxVerses : Nat := 10) : List Verse :=
  match verses with
  | .arr xs => ((xs.filter isValidVerse).map mkVerse).take maxVerses
  | _ => []

/-! ## Rate limiter (`reflectionStatus.js` lines 5-44) -/

/-- One entry of `RATE_LIMIT_STORE`: `{ count, timestamp }`. -/
structure RateEntry where
  count : Nat
  timestamp : Int
  deriving DecidableEq

/-- The shared store, a JS object keyed by strings. -/
def RateStore := String → Option RateEntry

/-- `RATE_WINDOW_MS = 60 * 1000`. -/
def RATE_WINDOW_MS : Int := 60 * 1000

/-- `MAX_POST_REQUESTS_PER_IP = 5`. -/
def MAX_POST_REQUESTS_PER_IP : Nat := 5

/-- `MAX_GET_REQUESTS_PER_IP = 60`. -/
def MAX_GET_REQUESTS_PER_IP : Nat := 60

/-- The store key: the template string `ip-requestType`. -/
def rateLimitKey (ip requestType : String) : String :=
  ip ++ "-" ++ requestType

/-- The opportunistic sweep at the top of `checkRateLimit`: delete every
entry older than the window. -/
def cleanupRateStore (now : Int) (s : RateStore) : RateStore :=
  fun k =>
    match s k with
    | some e => if now - e.timestamp > RATE_WINDOW_MS then none else some e
    | none => none

/-- The per-class ceiling chosen at the end of `checkRateLimit`. -/
def rateLimitCeiling (requestType : String) : Nat :=
  if requestType = "GET" then MAX_GET_REQUESTS_PER_IP else MAX_POST_REQUESTS_PER_IP

/-- `checkRateLimit(ip, requestType)` from `reflectionStatus.js` lines 13-44,
with `Date.now()` passed explicitly. Returns the mutated store and the
boolean `count > limit` (`true` means the request is rejected). -/
def checkRateLimit (now : Int) (s : RateStore) (ip requestType : String) :
    RateStore × Bool :=
  let key := rateLimitKey ip requestType
  let s1 := cleanupRateStore now s
  let e0 : RateEntry :=
    match s1 key with
    | none => { count := 0, timestamp := now }
    | some e => e
  let e1 : RateEntry :=
    if now - e0.timestamp > RATE_WINDOW_MS then { count := 0, timestamp := now } else e0
  let e2 : RateEntry := { e1 with count := e1.count + 1 }
  let s2 : RateStore := fun k => if k = key then some e2 else s1 k
  (s2, decide (e2.count > rateLimitCeiling requestType))

/-! ## Upstream API model

The external generation API is the narrow collaborator of the spec: each
`fetch` either rejects at the transport level or yields a response with an
HTTP status, an optional `retry-after` header (parsed seconds), a flag for
whether its body is parseable JSON, and — when the body has the
`choices[0].message` shape the code checks — the generated text content. -/

/-- One upstream HTTP response. -/
structure UpstreamResponse where
  status : Nat
  retryAfterHeader : Option Nat
  bodyParses : Bool
  content : Option (List Char)
  deriving DecidableEq

/-- Result of one `fetch` call: a response, or a transport-level rejection. -/
inductive FetchResult where
  | resp (r : UpstreamResponse)
  | fetchErr
  deriving DecidableEq

/-- `response.ok`: status in [200, 300). -/
def respOk (r : UpstreamResponse) : Bool :=
  200 ≤ r.status && r.status < 300

/-- The error finally thrown out of a retry loop. -/
inductive CallError where
  | http (status : Nat)
  | badBody
  | transport
  deriving DecidableEq

/-- `const maxRetries = 3` (both retry loops). -/
def maxRetries : Nat := 3

/-- `let retryDelay = 2000` (both retry loops). -/
def initialRetryDelay : Nat := 2000

/-! ## `handleVerseSearch` retry loop (`generateReflection.js` lines 169-262) -/

/-- Outcome of the `handleVerseSearch` retry loop. -/
inductive HvsOutcome where
  | success (r : UpstreamResponse)
  | failure (e : CallError)
  deriving DecidableEq

/-- Statistics of one run of the `handleVerseSearch` retry loop:
its outcome, the number of `fetch` attempts performed, and the list of
locally-timed waits (milliseconds) in order. -/
structure HvsStats where
  outcome : HvsOutcome
  attempts : Nat
  waits : List Nat
  deriving DecidableEq

/-- Total locally-timed wait of a run. -/
def HvsStats.localWait (s : HvsStats) : Nat := s.waits.sum

/-- The retry loop of `handleVerseSearch`, indexed by the remaining number of
loop entries `maxRetries + 1 - retryCount`. On HTTP 429 with retries left it
waits `retryDelay` then doubles; on any other non-2xx response it throws an
error that the surrounding `catch (err)` block CATCHES, so that error too is
retried (wait `retryDelay`, then double) until `retryCount > maxRetries`;
likewise for transport failures and unparseable 2xx bodies. A 2xx response
with a parseable body breaks the loop. -/
def hvsRetryLoop (upstream : Nat → FetchResult) :
    Nat → Nat → Nat → HvsStats
  | 0, attempt, _ =>
    -- loop guard `retryCount <= maxRetries` false: unreachable, every
    -- exhausted path above already returned
    { outcome := .failure .transport, attempts := attempt, waits := [] }
  | r + 1, attempt, retryDelay =>
    let retryThen (e : CallError) : HvsStats :=
      -- `catch (err)` block: retryCount++; rethrow when retries exhausted,
      -- otherwise wait `retryDelay` and double it
      if r = 0 then
        { outcome := .failure e, attempts := attempt + 1, waits := [] }
      else
        let s := hvsRetryLoop upstream r (attempt + 1) (retryDelay * 2)
        { s with waits := retryDelay :: s.waits }
    match upstream attempt with
    | .fetchErr => retryThen .transport
    | .resp resp =>
      if respOk resp then
        if resp.bodyParses then
          { outcome := .success resp, attempts := attempt + 1, waits := [] }
        else
          retryThen .badBody
      else
        if resp.status = 429 then
          -- 429 branch: retryCount++; wait/double when retries remain,
          -- otherwise fall through to the throw, re-caught and rethrown
          retryThen (.http 429)
        else
          -- non-429, non-2xx: `throw new Error(...)` — caught by the
          -- inner catch and retried like a transport failure
          retryThen (.http resp.status)

/-- The verse-search evaluation call: the loop entered with `retryCount = 0`,
`retryDelay = 2000`, `maxRetries = 3`. -/
def handleVerseSearchCall (upstream : Nat → FetchResult) : HvsStats :=
  hvsRetryLoop upstream (maxRetries + 1) 0 initialRetryDelay

/-! ## `generateReflection` retry loop (`reflectionStatus.js` lines 363-433) -/

/-- Outcome of the `generateReflection` call chain: the generated content, or
the error thrown (caught by the workflow's outermost handler). -/
inductive RsOutcome where
  | completedWith (content : List Char)
  | failure (e : CallError)
  deriving DecidableEq

/-- Statistics of one run of the `generateReflection` retry loop and its
post-loop response handling: outcome, `fetch` attempts, locally-timed waits
in order (429 waits with a `retry-after` header are externally dictated and
not counted), and the number of 429 iterations (each of which also performs
the `pending` store update). -/
structure RsStats where
  outcome : RsOutcome
  attempts : Nat
  waits : List Nat
  retries429 : Nat
  deriving DecidableEq

/-- Total locally-timed wait of a run. -/
def RsStats.localWait (s : RsStats) : Nat := s.waits.sum

/-- The retry loop of `reflectionStatus.js` `generateReflection` plus the
post-loop checks, indexed by the remaining loop entries
`maxRetries + 1 - retryCount`. On 429 it waits (the `retry-after` hint if
present, else `retryDelay`), then doubles and continues — even on the last
allowed entry, after which the loop guard fails and `!response.ok` throws
carrying status 429. Any other response breaks the loop: non-2xx throws an
error carrying the HTTP status with NO retry; a 2xx body that fails
`response.json()` or the `choices[0].message` shape check throws; otherwise
the content is returned. A transport failure with retries left doubles
`retryDelay` FIRST and then waits the doubled delay; with none left it is
rethrown. -/
def rsGenerateLoop (upstream : Nat → FetchResult) :
    Nat → Nat → Nat → RsStats
  | 0, attempt, _ =>
    -- loop guard false: the last iteration saw a 429 and `continue`d, so
    -- `response` is that 429 and `!response.ok` throws its status
    { outcome := .failure (.http 429), attempts := attempt, waits := [],
      retries429 := 0 }
  | r + 1, attempt, retryDelay =>
    match upstream attempt with
    | .fetchErr =>
      -- `catch (fetchError)`: rethrow when `retryCount >= maxRetries`;
      -- otherwise retryCount++, retryDelay *= 2, wait the DOUBLED delay
      if r = 0 then
        { outcome := .failure .transport, attempts := attempt + 1,
          waits := [], retries429 := 0 }
      else
        let s := rsGenerateLoop upstream r (attempt + 1) (retryDelay * 2)
        { s with waits := retryDelay * 2 :: s.waits }
    | .resp resp =>
      if resp.status = 429 then
        -- store update to pending, wait, retryCount++, retryDelay *= 2
        let s := rsGenerateLoop upstream r (attempt + 1) (retryDelay * 2)
        match resp.retryAfterHeader with
        | some _ =>
          { s with retries429 := s.retries429 + 1 }
        | none =>
          { s with waits := retryDelay :: s.waits,
                   retries429 := s.retries429 + 1 }
      else
        -- break; then the post-loop checks
        if respOk resp then
          if resp.bodyParses then
            match resp.content with
            | some c =>
              { outcome := .completedWith c, attempts := attempt + 1,
                waits := [], retries429 := 0 }
            | none =>
              { outcome := .failure .badBody, attempts := attempt + 1,
                waits := [], retries429 := 0 }
          else
            { outcome := .failure .badBody, attempts := attempt + 1,
              waits := [], retries429 := 0 }
        else
          { outcome := .failure (.http resp.status), attempts := attempt + 1,
            waits := [], retries429 := 0 }

/-- The reflection generation call: loop entered with `retryCount = 0`,
`retryDelay = 2000`, `maxRetries = 3`. -/
def generateReflectionCall (upstream : Nat → FetchResult) : RsStats :=
  rsGenerateLoop upstream (maxRetries + 1) 0 initialRetryDelay

/-! ## Job store and generation workflow (`reflectionStatus.js`)

A run of the async workflow `generateReflection(id, topic, verses)` is a
sequence of atomic store writes at its job id: one `pending` refresh per 429
retry (lines 389-394), then exactly one terminal write — the completed record
(lines 435-451, recreating a minimal record first when the id is missing) or
the error record (lines 455-477, likewise handling a missing id). Between any
two writes the sweep (`cleanupStaleEntries` / `scheduleDeletion`) may delete
the record, which we model by an adversarial deletion schedule. Nothing else
writes at this id: ids are unique per create. -/

/-- Job lifecycle states. -/
inductive JobStatus where
  | pending
  | completed
  | error
  deriving DecidableEq

/-- `true` exactly on the terminal states. -/
def JobStatus.isTerminal : JobStatus → Bool
  | .pending => false
  | .completed => true
  | .error => true

/-- One record of `REFLECTION_STORE`. Fields the code sometimes leaves out of
an object literal (`completed`, `result`, `error`, `retryCount`,
`retryAfter`) are `none` (JS `undefined` and `null` both map to `none`). -/
structure JobRecord where
  status : JobStatus
  started : Int
  completed : Option Int
  result : Option (List Char)
  error : Option (List Char)
  retryCount : Option Nat
  retryAfter : Option Int
  deriving DecidableEq

/-- The record created by the POST handler (lines 157-162):
`{status: 'pending', started: now, result: null, error: null}`. -/
def initialRecord (t : Int) : JobRecord :=
  { status := .pending, started := t, completed := none,
    result := none, error := none, retryCount := none, retryAfter := none }

/-- The generic message stored on the error path (lines 465, 474). -/
def failMsg : List Char := "Failed to generate reflection".toList

/-- One atomic store write performed by the generation workflow. -/
inductive WorkflowWrite where
  | retryUpdate
  | complete (content : List Char)
  | fail
  deriving DecidableEq

/-- Apply one workflow write to the record currently stored at the job id
(`none` when deleted or never created); `now` is the wall clock of the write
(timestamp values are opaque to every property proved here).

* `retryUpdate` (lines 389-394) runs only `if (REFLECTION_STORE[id])`:
  it refreshes `status = 'pending'`, bumps `retryCount` and stamps
  `retryAfter`, leaving `result`/`error` untouched.
* `complete` (lines 435-451) recreates a minimal pending record when the id
  is missing, then replaces it wholesale with the completed record.
* `fail` (lines 455-477) writes the error record, recreating it from scratch
  when the id is missing. -/
def applyWrite (now : Int) : WorkflowWrite → Option JobRecord → Option JobRecord
  | .retryUpdate, none => none
  | .retryUpdate, some r =>
    some { r with
      status := .pending,
      retryCount := some (r.retryCount.getD 0 + 1),
      retryAfter := some now }
  | .complete c, rec =>
    some { status := .completed,
           started := match rec with | some r => r.started | none => now,
           completed := some now,
           result := some c,
           error := none,
           retryCount := none,
           retryAfter := none }
  | .fail, rec =>
    some { status := .error,
           started := match rec with | some r => r.started | none => now,
           completed := some now,
           result := none,
           error := some failMsg,
           retryCount := none,
           retryAfter := none }

/-- `${v.reference}: ${v.text}` when both fields are truthy, `''` otherwise
(the map step at lines 311-316). -/
def verseLine (v : Verse) : List Char :=
  if v.reference.isEmpty || v.text.isEmpty then []
  else v.reference ++ ':' :: ' ' :: v.text

/-- `versesToUse.map(...).filter(Boolean).join('\n')` over the first 10
verses (lines 305-317). -/
def versesText (verses : List Verse) : List Char :=
  List.intercalate ['\n'] (((verses.take 10).map verseLine).filter (fun l => !l.isEmpty))

/-- The sequence of store writes one run of `generateReflection` performs,
as a function of its inputs, the presence of the API key and the upstream
behaviour. The input-validation throws (missing topic, empty verse list,
empty verses text, missing key) all land in the outermost catch, producing
the single error write; otherwise the retry loop emits one `pending` refresh
per 429 and the run ends in the terminal write decided by the call outcome. -/
def rsWorkflowWrites (topic : List Char) (verses : List Verse)
    (apiKeyPresent : Bool) (upstream : Nat → FetchResult) : List WorkflowWrite :=
  if topic.isEmpty then [.fail]
  else if verses.isEmpty then [.fail]
  else if (jsTrim (versesText verses)).isEmpty then [.fail]
  else if !apiKeyPresent then [.fail]
  else
    let s := generateReflectionCall upstream
    List.replicate s.retries429 .retryUpdate ++
      [match s.outcome with
       | .completedWith c => .complete c
       | .failure _ => .fail]

/-- Fold a write sequence over the store slot of the job id. `times k` is the
wall clock of the `k`-th write and `del k` tells whether the sweep deleted
the record just before the `k`-th write. -/
def applyWrites (times : Nat → Int) (del : Nat → Bool) :
    Nat → List WorkflowWrite → Option JobRecord → Option JobRecord
  | _, [], st => st
  | k, w :: ws, st =>
    applyWrites times del (k + 1) ws
      (applyWrite (times k) w (if del k then none else st))

/-- All states the store slot passes through while the writes execute
(initial state included). -/
def writeTrace (times : Nat → Int) (del : Nat → Bool) :
    Nat → List WorkflowWrite → Option JobRecord → List (Option JobRecord)
  | _, [], st => [st]
  | k, w :: ws, st =>
    st :: writeTrace times del (k + 1) ws
      (applyWrite (times k) w (if del k then none else st))

/-- The trace of store states of one complete run of the generation workflow,
started from the record the POST handler created at time `t0`. -/
def generateReflectionTrace (topic : List Char) (verses : List Verse)
    (apiKeyPresent : Bool) (upstream : Nat → FetchResult)
    (times : Nat → Int) (del : Nat → Bool) (t0 : Int) :
    List (Option JobRecord) :=
  writeTrace times del 0 (rsWorkflowWrites topic verses apiKeyPresent upstream)
    (some (initialRecord t0))

/-- The store slot after one complete run of the generation workflow. -/
def generateReflectionFinal (topic : List Char) (verses : List Verse)
    (apiKeyPresent : Bool) (upstream : Nat → FetchResult)
    (times : Nat → Int) (del : Nat → Bool) (t0 : Int) : Option JobRecord :=
  applyWrites times del 0 (rsWorkflowWrites topic verses apiKeyPresent upstream)
    (some (initialRecord t0))

/-! ## Status-poll response (`reflectionStatus.js` lines 229-249) -/

/-- The fixed client-visible error text (`'An error occurred'`, line 237). -/
def genericErrorMessage : List Char := "An error occurred".toList

/-- The GET response body: exactly the three fields of `safeResponse`. -/
structure SafeResponse where
  status : JobStatus
  result : Option (List Char)
  error : Option (List Char)
  deriving DecidableEq

/-- The `safeResponse` object built for a stored record (lines 232-238):
`result` only when completed, a generic constant `error` only when errored,
and none of the internal fields. -/
def safeResponseOf (r : JobRecord) : SafeResponse :=
  { status := r.status,
    result := if r.status = .completed then r.result else none,
    error := if r.status = .error then some genericErrorMessage else none }

/-! ## Record invariant (claim C1) -/

/-- The job-record invariant: both terminal fields null while pending;
exactly one of them non-null in a terminal state. -/
def recordInv (r : JobRecord) : Prop :=
  (r.status = .pending → r.result = none ∧ r.error = none) ∧
  (r.status.isTerminal = true →
    (r.result.isSome = true ∧ r.error = none) ∨
    (r.result = none ∧ r.error.isSome = true))

instance (r : JobRecord) : Decidable (recordInv r) := by
  unfold recordInv; infer_instance

/-- The invariant on a store slot: holds vacuously when no record exists. -/
def slotInv : Option JobRecord → Prop
  | none => True
  | some r => recordInv r

instance (s : Option JobRecord) : Decidable (slotInv s) := by
  cases s <;> · unfold slotInv; infer_instance

/-- A store slot that is either deleted or holds a pending record with both
terminal fields null — the only shapes the slot can have before the
workflow's terminal write. -/
def pendingSlot : Option JobRecord → Prop
  | none => True
  | some r => r.status = .pending ∧ r.result = none ∧ r.error = none

instance (s : Option JobRecord) : Decidable (pendingSlot s) := by
  cases s <;> · unfold pendingSlot; infer_instance

/-- An upstream that never succeeds: every delivered response is non-2xx
(transport failures are failures by definition). -/
def NeverSucceeds (u : Nat → FetchResult) : Prop :=
  ∀ n r, u n = .resp r → respOk r = false

/-- A mock upstream answering HTTP 500 on every attempt. -/
def upstream500 : Nat → FetchResult := fun _ =>
  .resp { status := 500, retryAfterHeader := none, bodyParses := true, content := none }

/-- A mock upstream whose every `fetch` fails at the transport level. -/
def upstreamFetchErr : Nat → FetchResult := fun _ => .fetchErr

/-- A mock upstream answering HTTP 429 (no `retry-after` header) on every
attempt. -/
def upstream429 : Nat → FetchResult := fun _ =>
  .resp { status := 429, retryAfterHeader := none, bodyParses := true, content := none }

/-- A mock upstream that immediately succeeds with content `"x"`. -/
def upstreamOk : Nat → FetchResult := fun _ =>
  .resp { status := 200, retryAfterHeader := none, bodyParses := true,
          content := some ['x'] }

/-! ## Theorems -/

/-- Both configured ceilings are at least 1. -/
theorem one_le_rateLimitCeiling (rt : String) : 1 ≤ rateLimitCeiling rt := by
  unfold rateLimitCeiling
  split <;> simp [MAX_GET_REQUESTS_PER_IP, MAX_POST_REQUESTS_PER_IP]

/-- Unfolding `checkRateLimit` when the key holds a current-window entry:
the sweep and the reset both leave the entry alone, the count is bumped and
compared to the ceiling. -/
theorem checkRateLimit_fresh (now : Int) (s : RateStore) (ip rt : String)
    (e : RateEntry) (hk : s (rateLimitKey ip rt) = some e)
    (hw : now - e.timestamp ≤ RATE_WINDOW_MS) :
    checkRateLimit now s ip rt =
      ((fun k => if k = rateLimitKey ip rt
          then some { e with count := e.count + 1 }
          else cleanupRateStore now s k),
        decide (e.count + 1 > rateLimitCeiling rt)) := by
  simp only [checkRateLimit, cleanupRateStore, hk, if_neg (by omega : ¬ now - e.timestamp > RATE_WINDOW_MS)]

/-- Unfolding `checkRateLimit` when the key's window has elapsed: the sweep
deletes the entry, a fresh one is created and the count restarts at 1. -/
theorem checkRateLimit_expired (now : Int) (s : RateStore) (ip rt : String)
    (e : RateEntry) (hk : s (rateLimitKey ip rt) = some e)
    (hw : RATE_WINDOW_MS < now - e.timestamp) :
    checkRateLimit now s ip rt =
      ((fun k => if k = rateLimitKey ip rt
          then some { count := 1, timestamp := now }
          else cleanupRateStore now s k),
        decide (1 > rateLimitCeiling rt)) := by
  simp only [checkRateLimit, cleanupRateStore, hk,
    if_pos (by omega : now - e.timestamp > RATE_WINDOW_MS)]
  rw [if_neg (by unfold RATE_WINDOW_MS; omega)]

/-- C5: for a key holding a current-window entry that has already observed
the configured ceiling `N` of requests, the next (`N+1`-th) request of that
window is rejected; and the first request arriving after the window has
elapsed is accepted no matter how large the prior count was. -/
theorem checkRateLimit_window_behaviour (now : Int) (s : RateStore)
    (ip rt : String) (e : RateEntry)
    (hk : s (rateLimitKey ip rt) = some e) :
    (now - e.timestamp ≤ RATE_WINDOW_MS → rateLimitCeiling rt ≤ e.count →
      (checkRateLimit now s ip rt).2 = true) ∧
    (RATE_WINDOW_MS < now - e.timestamp →
      (checkRateLimit now s ip rt).2 = false) := by
  constructor
  · intro hw hc
    rw [checkRateLimit_fresh now s ip rt e hk hw]
    simpa using by omega
  · intro hw
    rw [checkRateLimit_expired now s ip rt e hk hw]
    have := one_le_rateLimitCeiling rt
    simpa using by omega

/-- Witness for C5 at a concrete store: the key has seen 5 POST requests at
time 0; at time 10 the 6th is rejected, while at time 70000 (window over) it
is accepted. -/
theorem checkRateLimit_window_behaviour_witness :
    ((fun k => if k = "1.2.3.4-POST" then some { count := 5, timestamp := 0 }
       else none : RateStore) "1.2.3.4-POST" = some { count := 5, timestamp := 0 }) ∧
    (checkRateLimit 10 (fun k => if k = "1.2.3.4-POST"
       then some { count := 5, timestamp := 0 } else none) "1.2.3.4" "POST").2 = true ∧
    (checkRateLimit 70000 (fun k => if k = "1.2.3.4-POST"
       then some { count := 5, timestamp := 0 } else none) "1.2.3.4" "POST").2 = false := by
  refine ⟨by decide, ?_, ?_⟩
  · exact (checkRateLimit_window_behaviour 10 _ "1.2.3.4" "POST"
      { count := 5, timestamp := 0 } (by decide)).1 (by decide) (by decide)
  · exact (checkRateLimit_window_behaviour 70000 _ "1.2.3.4" "POST"
      { count := 5, timestamp := 0 } (by decide)).2 (by decide)

/-- Unfolding `checkRateLimit` when the key has no entry: one is initialized
and the count restarts at 1. -/
theorem checkRateLimit_absent (now : Int) (s : RateStore) (ip rt : String)
    (hk : s (rateLimitKey ip rt) = none) :
    checkRateLimit now s ip rt =
      ((fun k => if k = rateLimitKey ip rt
          then some { count := 1, timestamp := now }
          else cleanupRateStore now s k),
        decide (1 > rateLimitCeiling rt)) := by
  simp only [checkRateLimit, cleanupRateStore, hk]
  norm_num [RATE_WINDOW_MS]

/-- C10: `checkRateLimit` increments the stored counter on every call — the
new count is one more than the surviving count (zero when the entry was
absent or its window had elapsed) even when the call is rejected — and
therefore, once a call for a key is rejected, every later call for the same
key whose window has not elapsed is rejected as well. -/
theorem checkRateLimit_counts_and_monotone (now : Int) (s : RateStore)
    (ip rt : String) :
    ((checkRateLimit now s ip rt).1 (rateLimitKey ip rt) =
      some { count :=
               (match s (rateLimitKey ip rt) with
                | some e => if now - e.timestamp ≤ RATE_WINDOW_MS then e.count else 0
                | none => 0) + 1,
             timestamp :=
               (match s (rateLimitKey ip rt) with
                | some e => if now - e.timestamp ≤ RATE_WINDOW_MS then e.timestamp else now
                | none => now) }) ∧
    ((checkRateLimit now s ip rt).2 = true →
      ∀ (now' : Int) (e' : RateEntry),
        (checkRateLimit now s ip rt).1 (rateLimitKey ip rt) = some e' →
        now' - e'.timestamp ≤ RATE_WINDOW_MS →
        (checkRateLimit now' (checkRateLimit now s ip rt).1 ip rt).2 = true) := by
  constructor
  · match hk : s (rateLimitKey ip rt) with
    | some e =>
      rcases le_or_lt (now - e.timestamp) RATE_WINDOW_MS with hw | hw
      · rw [checkRateLimit_fresh now s ip rt e hk hw]
        simp [hw]
      · rw [checkRateLimit_expired now s ip rt e hk hw]
        simp [not_le.mpr hw]
    | none =>
      rw [checkRateLimit_absent now s ip rt hk]
      simp
  · intro hrej now' e' he' hw'
    have hcount : rateLimitCeiling rt < e'.count := by
      rcases hmk : s (rateLimitKey ip rt) with _ | e
      · rw [checkRateLimit_absent now s ip rt hmk] at hrej he'
        simp only [decide_eq_true_eq, gt_iff_lt] at hrej
        simp only [if_pos rfl, if_true, Option.some.injEq] at he'
        have : e'.count = 1 := by rw [← he']
        omega
      · rcases le_or_lt (now - e.timestamp) RATE_WINDOW_MS with hw | hw
        · rw [checkRateLimit_fresh now s ip rt e hmk hw] at hrej he'
          simp only [decide_eq_true_eq, gt_iff_lt] at hrej
          simp only [if_pos rfl, if_true, Option.some.injEq] at he'
          have : e'.count = e.count + 1 := by rw [← he']
          omega
        · rw [checkRateLimit_expired now s ip rt e hmk hw] at hrej he'
          simp only [decide_eq_true_eq, gt_iff_lt] at hrej
          simp only [if_pos rfl, if_true, Option.some.injEq] at he'
          have : e'.count = 1 := by rw [← he']
          omega
    rw [checkRateLimit_fresh now' _ ip rt e' he' hw']
    simpa using by omega

/-- Witness for C10: after a rejected call (count already 5 at the ceiling
5), a further call 1ms later in the same window is rejected too. -/
theorem checkRateLimit_counts_and_monotone_witness :
    (checkRateLimit 10 (fun k => if k = "9.9.9.9-POST"
       then some { count := 5, timestamp := 0 } else none) "9.9.9.9" "POST").2 = true ∧
    (checkRateLimit 11
      (checkRateLimit 10 (fun k => if k = "9.9.9.9-POST"
         then some { count := 5, timestamp := 0 } else none) "9.9.9.9" "POST").1
      "9.9.9.9" "POST").2 = true := by
  have h1 : (checkRateLimit 10 (fun k => if k = "9.9.9.9-POST"
      then some { count := 5, timestamp := 0 } else none) "9.9.9.9" "POST").2 = true := by
    decide
  refine ⟨h1, ?_⟩
  exact (checkRateLimit_counts_and_monotone 10 _ "9.9.9.9" "POST").2 h1 11
    { count := 6, timestamp := 0 } (by decide) (by decide)

/-- `isTerminal` spelled as a disjunction. -/
theorem isTerminal_iff (s : JobStatus) :
    s.isTerminal = true ↔ (s = .completed ∨ s = .error) := by
  cases s <;> simp [JobStatus.isTerminal]

/-- The two terminal writes always store a terminal record satisfying the
record invariant, whatever the slot holds — including `none`, the
deleted/never-created case, which they recreate instead of throwing. -/
theorem applyWrite_terminal (t : Int) (w : WorkflowWrite)
    (hw : w = .fail ∨ ∃ c, w = .complete c) (st : Option JobRecord) :
    ∃ r, applyWrite t w st = some r ∧ r.status.isTerminal = true ∧ recordInv r := by
  rcases hw with rfl | ⟨c, rfl⟩
  · exact ⟨_, rfl, rfl, by simp [recordInv, JobStatus.isTerminal, failMsg]⟩
  · exact ⟨_, rfl, rfl, by simp [recordInv, JobStatus.isTerminal]⟩

/-- A deletion by the sweep preserves the pending-or-absent shape. -/
theorem pendingSlot_del (b : Bool) (st : Option JobRecord)
    (h : pendingSlot st) : pendingSlot (if b then none else st) := by
  cases b
  · simpa using h
  · exact trivial

/-- The 429 `pending` refresh preserves the pending-or-absent shape: it
touches neither `result` nor `error` and runs only when the record exists. -/
theorem applyWrite_retryUpdate_pending (t : Int) (st : Option JobRecord)
    (h : pendingSlot st) : pendingSlot (applyWrite t .retryUpdate st) := by
  cases st with
  | none => exact trivial
  | some r => exact ⟨rfl, h.2.1, h.2.2⟩

/-- A pending-or-absent slot satisfies the record invariant. -/
theorem pendingSlot_slotInv (st : Option JobRecord) (h : pendingSlot st) :
    slotInv st := by
  cases st with
  | none => exact trivial
  | some r =>
    refine ⟨fun _ => ⟨h.2.1, h.2.2⟩, fun hT => ?_⟩
    rw [h.1] at hT
    simp [JobStatus.isTerminal] at hT

/-- Every state of a run shaped `retryUpdate*, terminal` from a
pending-or-absent slot satisfies the record invariant. -/
theorem writeTrace_retry_terminal (times : Nat → Int) (del : Nat → Bool)
    (w : WorkflowWrite) (hw : w = .fail ∨ ∃ c, w = .complete c) :
    ∀ (n k : Nat) (st : Option JobRecord), pendingSlot st →
      ∀ x ∈ writeTrace times del k (List.replicate n .retryUpdate ++ [w]) st,
        slotInv x := by
  intro n
  induction n with
  | zero =>
    intro k st hst x hx
    simp only [List.replicate, List.nil_append, writeTrace, List.mem_cons,
      List.not_mem_nil, or_false] at hx
    rcases hx with rfl | rfl
    · exact pendingSlot_slotInv _ hst
    · obtain ⟨r, hr, _, hInv⟩ := applyWrite_terminal (times k) w hw
        (if del k then none else st)
      rw [hr]
      exact hInv
  | succ n ih =>
    intro k st hst x hx
    simp only [List.replicate_succ, List.cons_append, writeTrace,
      List.mem_cons] at hx
    rcases hx with rfl | hx
    · exact pendingSlot_slotInv _ hst
    · exact ih (k + 1) _
        (applyWrite_retryUpdate_pending _ _ (pendingSlot_del _ _ hst)) x hx

/-- Every run of the workflow writes some number of `pending` refreshes
followed by exactly one terminal write. -/
theorem rsWorkflowWrites_shape (topic : List Char) (verses : List Verse)
    (apiKeyPresent : Bool) (upstream : Nat → FetchResult) :
    ∃ n w, rsWorkflowWrites topic verses apiKeyPresent upstream =
      List.replicate n .retryUpdate ++ [w] ∧
      (w = .fail ∨ ∃ c, w = .complete c) := by
  simp only [rsWorkflowWrites]
  split_ifs
  · exact ⟨0, .fail, rfl, .inl rfl⟩
  · exact ⟨0, .fail, rfl, .inl rfl⟩
  · exact ⟨0, .fail, rfl, .inl rfl⟩
  · exact ⟨0, .fail, rfl, .inl rfl⟩
  · cases houtcome : (generateReflectionCall upstream).outcome with
    | completedWith c =>
      exact ⟨(generateReflectionCall upstream).retries429, .complete c,
        rfl, .inr ⟨c, rfl⟩⟩
    | failure e =>
      exact ⟨(generateReflectionCall upstream).retries429, .fail,
        rfl, .inl rfl⟩

/-- C1: along every run of the generation workflow — for every input, API-key
configuration, upstream behaviour, write clock and sweep-deletion schedule —
every state the job's store slot passes through satisfies the invariant:
while `pending`, both `result` and `error` are null; in a terminal state
exactly one of them is non-null, never both and never neither. -/
theorem generateReflection_record_invariant (topic : List Char)
    (verses : List Verse) (apiKeyPresent : Bool)
    (upstream : Nat → FetchResult) (times : Nat → Int) (del : Nat → Bool)
    (t0 : Int) :
    ∀ st ∈ generateReflectionTrace topic verses apiKeyPresent upstream
        times del t0, slotInv st := by
  obtain ⟨n, w, hEq, hw⟩ :=
    rsWorkflowWrites_shape topic verses apiKeyPresent upstream
  intro st hst
  rw [generateReflectionTrace, hEq] at hst
  exact writeTrace_retry_terminal times del w hw n 0 _
    (by simp [pendingSlot, initialRecord]) st hst

/-- Witness for C1: a concrete successful run (topic `"h"`, one verse,
API key present, upstream succeeding at once); its initial state is in the
trace and satisfies the invariant. -/
theorem generateReflection_record_invariant_witness :
    slotInv (some (initialRecord 0)) :=
  generateReflection_record_invariant ['h']
    [{ reference := ['r'], text := ['t'] }] true upstreamOk (fun _ => 0)
    (fun _ => false) 0 (some (initialRecord 0)) (by decide)

/-- `applyWrites` over a sequence ending in a single write. -/
theorem applyWrites_append_single (times : Nat → Int) (del : Nat → Bool) :
    ∀ (ws : List WorkflowWrite) (k : Nat) (w : WorkflowWrite)
      (st : Option JobRecord),
      applyWrites times del k (ws ++ [w]) st =
        applyWrite (times (k + ws.length)) w
          (if del (k + ws.length) then none
           else applyWrites times del k ws st) := by
  intro ws
  induction ws with
  | nil => intro k w st; simp [applyWrites]
  | cons x xs ih =>
    intro k w st
    simp only [List.cons_append, applyWrites, List.append_eq, List.length_cons]
    rw [ih]
    have h : k + (xs.length + 1) = (k + 1) + xs.length := by omega
    rw [h]

/-- C3: the terminal transitions recreate a minimal terminal record when the
job id was deleted or never existed (instead of throwing), and consequently
every run of the generation workflow — every input, upstream behaviour and
deletion schedule, hence every exception path — leaves the job id mapped to
a terminal (`completed` or `error`) record, never `pending` and never
absent. -/
theorem generateReflection_reaches_terminal (topic : List Char)
    (verses : List Verse) (apiKeyPresent : Bool)
    (upstream : Nat → FetchResult) (times : Nat → Int) (del : Nat → Bool)
    (t0 : Int) :
    (∃ r, generateReflectionFinal topic verses apiKeyPresent upstream
        times del t0 = some r ∧ (r.status = .completed ∨ r.status = .error)) ∧
    (∀ (t : Int) (c : List Char), ∃ r,
      applyWrite t (.complete c) none = some r ∧ r.status = .completed) ∧
    (∀ t : Int, ∃ r, applyWrite t .fail none = some r ∧ r.status = .error) := by
  refine ⟨?_, fun t c => ⟨_, rfl, rfl⟩, fun t => ⟨_, rfl, rfl⟩⟩
  obtain ⟨n, w, hEq, hw⟩ :=
    rsWorkflowWrites_shape topic verses apiKeyPresent upstream
  rw [generateReflectionFinal, hEq, applyWrites_append_single]
  obtain ⟨r, hr, hterm, _⟩ := applyWrite_terminal
    (times (0 + (List.replicate n (WorkflowWrite.retryUpdate)).length)) w hw
    (if del (0 + (List.replicate n (WorkflowWrite.retryUpdate)).length) then none
     else applyWrites times del 0 (List.replicate n .retryUpdate)
       (some (initialRecord t0)))
  exact ⟨r, hr, (isTerminal_iff r.status).mp hterm⟩

theorem hvs_attempts_le (u : Nat → FetchResult) :
    ∀ (r a d : Nat), (hvsRetryLoop u r a d).attempts ≤ a + r := by
  intro r
  induction r with
  | zero => intro a d; simp [hvsRetryLoop]
  | succ n ih =>
    intro a d
    have H := ih (a + 1) (d * 2)
    rw [hvsRetryLoop]
    cases u a <;> dsimp only <;> split_ifs <;> dsimp only <;> omega

theorem hvs_wait_bound (u : Nat → FetchResult) :
    ∀ (r a d : Nat), (hvsRetryLoop u (r + 1) a d).waits.sum + d ≤ d * 2 ^ r := by
  intro r
  induction r with
  | zero =>
    intro a d
    rw [hvsRetryLoop]
    cases u a <;> dsimp only <;> split_ifs <;> (try simp_all [hvsRetryLoop]) <;> omega
  | succ n ih =>
    intro a d
    have H := ih (a + 1) (d * 2)
    have hpow : d * 2 * 2 ^ n = d * 2 ^ (n + 1) := by ring
    have hone : d * 1 ≤ d * 2 ^ (n + 1) := Nat.mul_le_mul_left d Nat.one_le_two_pow
    rw [hvsRetryLoop]
    cases u a <;> dsimp only <;> split_ifs <;> (try simp_all [List.sum_cons]) <;> omega

theorem hvs_waits_doubling (u : Nat → FetchResult) :
    ∀ (r a d : Nat), ∃ k, (hvsRetryLoop u r a d).waits =
      (List.range k).map (fun i => d * 2 ^ i) := by
  intro r
  induction r with
  | zero => intro a d; exact ⟨0, by simp [hvsRetryLoop]⟩
  | succ n ih =>
    intro a d
    obtain ⟨k, hk⟩ := ih (a + 1) (d * 2)
    have hcons : d :: (hvsRetryLoop u n (a + 1) (d * 2)).waits =
        (List.range (k + 1)).map (fun i => d * 2 ^ i) := by
      rw [hk, List.range_succ_eq_map]
      simp only [List.map_cons, List.map_map]
      congr 1
      · simp
      · refine List.map_congr_left fun i _ => ?_
        simp only [Function.comp_apply, pow_succ]
        ring
    rw [hvsRetryLoop]
    cases u a <;> dsimp only <;> split_ifs <;>
      first
        | exact ⟨0, rfl⟩
        | exact ⟨k + 1, hcons⟩

theorem hvs_never_succeeds (u : Nat → FetchResult) (hu : NeverSucceeds u) :
    ∀ (r a d : Nat), ∃ e, (hvsRetryLoop u r a d).outcome = .failure e := by
  intro r
  induction r with
  | zero => intro a d; exact ⟨.transport, rfl⟩
  | succ n ih =>
    intro a d
    rw [hvsRetryLoop]
    cases hc : u a with
    | fetchErr =>
      dsimp only
      split_ifs <;> first | exact ⟨.transport, rfl⟩ | exact ih (a + 1) (d * 2)
    | resp resp =>
      have hko := hu a resp hc
      dsimp only
      split_ifs <;>
        first
          | simp_all
          | exact ⟨.http 429, rfl⟩
          | exact ⟨.http resp.status, rfl⟩
          | exact ⟨.badBody, rfl⟩
          | exact ih (a + 1) (d * 2)

theorem rs_attempts_le (u : Nat → FetchResult) :
    ∀ (r a d : Nat), (rsGenerateLoop u r a d).attempts ≤ a + r := by
  intro r
  induction r with
  | zero => intro a d; simp [rsGenerateLoop]
  | succ n ih =>
    intro a d
    have H := ih (a + 1) (d * 2)
    rw [rsGenerateLoop]
    cases u a with
    | fetchErr => dsimp only; split_ifs <;> dsimp only <;> omega
    | resp resp =>
      rcases resp with ⟨st, hdr, bp, ct⟩
      cases hdr <;> cases ct <;> dsimp only <;> split_ifs <;> dsimp only <;> omega

theorem rs_wait_bound (u : Nat → FetchResult) :
    ∀ (r a d : Nat), (rsGenerateLoop u (r + 1) a d).waits.sum + 2 * d ≤
      3 * (d * 2 ^ r) := by
  intro r
  induction r with
  | zero =>
    intro a d
    rw [rsGenerateLoop]
    cases u a with
    | fetchErr =>
      dsimp only
      split_ifs <;> (try simp_all [rsGenerateLoop]) <;> omega
    | resp resp =>
      rcases resp with ⟨st, hdr, bp, ct⟩
      cases hdr <;> cases ct <;> dsimp only <;> split_ifs <;>
        (try simp_all [rsGenerateLoop]) <;> omega
  | succ n ih =>
    intro a d
    have H := ih (a + 1) (d * 2)
    have hpow : 3 * (d * 2 * 2 ^ n) = 3 * (d * 2 ^ (n + 1)) := by ring
    have hone : d * 1 ≤ d * 2 ^ (n + 1) := Nat.mul_le_mul_left d Nat.one_le_two_pow
    rw [rsGenerateLoop]
    cases u a with
    | fetchErr =>
      dsimp only
      split_ifs <;> (try simp_all [List.sum_cons]) <;> omega
    | resp resp =>
      rcases resp with ⟨st, hdr, bp, ct⟩
      cases hdr <;> cases ct <;> dsimp only <;> split_ifs <;>
        (try simp_all [List.sum_cons]) <;> omega

theorem rs_never_succeeds (u : Nat → FetchResult) (hu : NeverSucceeds u) :
    ∀ (r a d : Nat), ∃ e, (rsGenerateLoop u r a d).outcome = .failure e := by
  intro r
  induction r with
  | zero => intro a d; exact ⟨.http 429, rfl⟩
  | succ n ih =>
    intro a d
    rw [rsGenerateLoop]
    cases hc : u a with
    | fetchErr =>
      dsimp only
      split_ifs <;> first | exact ⟨.transport, rfl⟩ | exact ih (a + 1) (d * 2)
    | resp resp =>
      have hko := hu a resp hc
      dsimp only
      split_ifs <;>
        first
          | simp_all
          | exact ⟨.http resp.status, rfl⟩
          | (cases resp.retryAfterHeader <;> exact ih (a + 1) (d * 2))

/-- C2 counterexample: against an upstream answering HTTP 500 (non-2xx,
non-429) on every attempt, `handleVerseSearch` performs 4 fetch attempts —
the thrown HTTP error is caught by the loop's own `catch` and retried — so a
non-429 failure is NOT surfaced immediately without retry. -/
theorem handleVerseSearch_retries_non429 :
    (handleVerseSearchCall upstream500).attempts = 4 ∧
    1 < (handleVerseSearchCall upstream500).attempts ∧
    (handleVerseSearchCall upstream500).outcome = .failure (.http 500) := by
  refine ⟨by decide, by decide, by decide⟩

/-- C2 (amended): in `reflectionStatus.js` `generateReflection`, a non-2xx
response whose status is not 429, on any attempt, exits the loop at once —
exactly one more fetch, no wait, no retry — and is surfaced as an error
carrying the HTTP status; in `handleVerseSearch`, by contrast, such a
response is caught by the surrounding attempt handler and retried (waiting
the current backoff delay) whenever retries remain. -/
theorem non429_terminal_behaviour :
    (∀ (u : Nat → FetchResult) (r a d : Nat) (resp : UpstreamResponse),
      u a = .resp resp → respOk resp = false → resp.status ≠ 429 →
      rsGenerateLoop u (r + 1) a d =
        { outcome := .failure (.http resp.status), attempts := a + 1,
          waits := [], retries429 := 0 }) ∧
    (∀ (u : Nat → FetchResult) (r a d : Nat) (resp : UpstreamResponse),
      u a = .resp resp → respOk resp = false → resp.status ≠ 429 → r ≠ 0 →
      hvsRetryLoop u (r + 1) a d =
        { outcome := (hvsRetryLoop u r (a + 1) (d * 2)).outcome,
          attempts := (hvsRetryLoop u r (a + 1) (d * 2)).attempts,
          waits := d :: (hvsRetryLoop u r (a + 1) (d * 2)).waits }) := by
  constructor
  · intro u r a d resp hu hok h429
    rw [rsGenerateLoop, hu]
    dsimp only
    rw [if_neg h429, if_neg (by simp [hok])]
  · intro u r a d resp hu hok h429 hr
    rw [hvsRetryLoop, hu]
    dsimp only
    rw [if_neg (by simp [hok]), if_neg h429, if_neg hr]

/-- Witness for C2 (amended) at upstream constant 500, first attempt. -/
theorem non429_terminal_behaviour_witness :
    rsGenerateLoop upstream500 (3 + 1) 0 2000 =
      { outcome := .failure (.http 500), attempts := 0 + 1,
        waits := [], retries429 := 0 } ∧
    hvsRetryLoop upstream500 (3 + 1) 0 2000 =
      { outcome := (hvsRetryLoop upstream500 3 (0 + 1) (2000 * 2)).outcome,
        attempts := (hvsRetryLoop upstream500 3 (0 + 1) (2000 * 2)).attempts,
        waits := 2000 :: (hvsRetryLoop upstream500 3 (0 + 1) (2000 * 2)).waits } := by
  constructor
  · exact non429_terminal_behaviour.1 upstream500 3 0 2000
      { status := 500, retryAfterHeader := none, bodyParses := true,
        content := none } rfl (by decide) (by decide)
  · exact non429_terminal_behaviour.2 upstream500 3 0 2000
      { status := 500, retryAfterHeader := none, bodyParses := true,
        content := none } rfl (by decide) (by decide) (by decide)

/-- C6 counterexample: against an upstream whose every fetch fails at the
transport level, `reflectionStatus.js` `generateReflection` waits locally
4000, 8000 and 16000 ms — 28000 ms in total, exceeding the claimed bound
`initialDelay * (2^maxRetries - 1) = 14000` — because that path doubles the
delay BEFORE waiting. -/
theorem rs_local_wait_exceeds_claimed_bound :
    (generateReflectionCall upstreamFetchErr).waits = [4000, 8000, 16000] ∧
    (generateReflectionCall upstreamFetchErr).localWait = 28000 ∧
    initialRetryDelay * (2 ^ maxRetries - 1) = 14000 ∧
    ¬ ((generateReflectionCall upstreamFetchErr).localWait ≤
        initialRetryDelay * (2 ^ maxRetries - 1)) := by
  refine ⟨by decide, by decide, by decide, by decide⟩

/-- C6 (amended): in `handleVerseSearch` the locally-timed waits do follow
the pure doubling sequence `initialDelay, 2·initialDelay, 4·initialDelay, …`
and their total is bounded by `initialDelay * (2^maxRetries - 1)`; in
`reflectionStatus.js` `generateReflection` the transport-failure path doubles
the delay before sleeping, so its total locally-timed wait is bounded only by
`initialDelay * (3 * 2^maxRetries - 2)` (44000 ms), not by
`initialDelay * (2^maxRetries - 1)`. -/
theorem retry_backoff_wait_bounds :
    (∀ u, ∃ k, (handleVerseSearchCall u).waits =
      (List.range k).map (fun i => initialRetryDelay * 2 ^ i)) ∧
    (∀ u, (handleVerseSearchCall u).localWait ≤
      initialRetryDelay * (2 ^ maxRetries - 1)) ∧
    (∀ u, (generateReflectionCall u).localWait ≤
      initialRetryDelay * (3 * 2 ^ maxRetries - 2)) := by
  refine ⟨fun u => hvs_waits_doubling u (maxRetries + 1) 0 initialRetryDelay,
    fun u => ?_, fun u => ?_⟩
  · have h := hvs_wait_bound u maxRetries 0 initialRetryDelay
    unfold HvsStats.localWait handleVerseSearchCall
    unfold initialRetryDelay maxRetries at h ⊢
    omega
  · have h := rs_wait_bound u maxRetries 0 initialRetryDelay
    unfold RsStats.localWait generateReflectionCall
    unfold initialRetryDelay maxRetries at h ⊢
    omega

/-- C9: both retry loops terminate against every upstream behaviour, with at
most `maxRetries + 1 = 4` fetch attempts; and against an upstream that never
returns a 2xx response (always 500, always 429, or always a transport
failure) they end in a failure rather than looping. -/
theorem retry_loops_terminate :
    (∀ u, (handleVerseSearchCall u).attempts ≤ maxRetries + 1) ∧
    (∀ u, (generateReflectionCall u).attempts ≤ maxRetries + 1) ∧
    (∀ u, NeverSucceeds u →
      (∃ e, (handleVerseSearchCall u).outcome = .failure e) ∧
      (∃ e, (generateReflectionCall u).outcome = .failure e)) := by
  refine ⟨fun u => ?_, fun u => ?_, fun u hu =>
    ⟨hvs_never_succeeds u hu (maxRetries + 1) 0 initialRetryDelay,
     rs_never_succeeds u hu (maxRetries + 1) 0 initialRetryDelay⟩⟩
  · have h := hvs_attempts_le u (maxRetries + 1) 0 initialRetryDelay
    unfold handleVerseSearchCall
    omega
  · have h := rs_attempts_le u (maxRetries + 1) 0 initialRetryDelay
    unfold generateReflectionCall
    omega

/-- Witness for C9 against the always-500 upstream: 4 attempts, failure. -/
theorem retry_loops_terminate_witness :
    (handleVerseSearchCall upstream500).attempts ≤ maxRetries + 1 ∧
    (∃ e, (handleVerseSearchCall upstream500).outcome = .failure e) ∧
    (∃ e, (generateReflectionCall upstream500).outcome = .failure e) := by
  have hnever : NeverSucceeds upstream500 := by
    intro n r h
    injection h with h1
    rw [← h1]
    decide
  exact ⟨retry_loops_terminate.1 upstream500,
    (retry_loops_terminate.2.2 upstream500 hnever).1,
    (retry_loops_terminate.2.2 upstream500 hnever).2⟩


theorem dropWhile_idem (p : Char → Bool) (l : List Char) :
    (l.dropWhile p).dropWhile p = l.dropWhile p := by
  induction l with
  | nil => rfl
  | cons a l ih =>
    by_cases h : p a = true
    · simp [List.dropWhile_cons, h, ih]
    · simp [List.dropWhile_cons, h]

theorem dropWhile_eq_self_of_head (p : Char → Bool) (l : List Char)
    (h : ∀ c, l.head? = some c → p c = false) : l.dropWhile p = l := by
  cases l with
  | nil => rfl
  | cons a l => simp [List.dropWhile_cons, h a rfl]

theorem head?_dropWhile_false (p : Char → Bool) (l : List Char) (c : Char)
    (hc : (l.dropWhile p).head? = some c) : p c = false := by
  have h := List.head?_dropWhile_not p l
  rw [hc] at h
  exact h

theorem jsTrim_idem (s : List Char) : jsTrim (jsTrim s) = jsTrim s := by
  have hstep1 : ((jsTrim s).dropWhile jsWhitespace) = jsTrim s := by
    refine dropWhile_eq_self_of_head _ _ ?_
    intro c hc
    rw [jsTrim, List.head?_reverse] at hc
    have hwne : (s.dropWhile jsWhitespace).reverse.dropWhile jsWhitespace ≠ [] := by
      intro hnil
      rw [hnil] at hc
      simp at hc
    have hsuffix : (s.dropWhile jsWhitespace).reverse.dropWhile jsWhitespace <:+
        (s.dropWhile jsWhitespace).reverse := List.dropWhile_suffix _
    have hune : (s.dropWhile jsWhitespace).reverse ≠ [] := by
      intro hnil
      apply hwne
      rw [hnil]
      rfl
    have hlast := hsuffix.getLast hwne
    rw [List.getLast?_eq_getLast _ hwne, Option.some_inj] at hc
    rw [hlast, List.getLast_reverse hune] at hc
    have hhead : (s.dropWhile jsWhitespace).head? = some c := by
      rw [← hc]
      exact List.head?_eq_head _
    exact head?_dropWhile_false _ _ _ hhead
  rw [jsTrim, hstep1, jsTrim, List.reverse_reverse, dropWhile_idem]

theorem take_eq_self_of_le (l : List Char) (m : Nat) (h : l.length ≤ m) :
    l.take m = l := List.take_of_length_le h

/-- C7 counterexample: `sanitizeInput` is not idempotent — with cap 2, the
input `"a b"` trims to itself and truncates to `"a "`, whose second pass
trims the exposed trailing space to `"a"`. -/
theorem sanitizeInput_not_idempotent :
    sanitizeInput (.str ['a', ' ', 'b']) 2 = ['a', ' '] ∧
    sanitizeInput (.str (sanitizeInput (.str ['a', ' ', 'b']) 2)) 2 = ['a'] ∧
    sanitizeInput (.str (sanitizeInput (.str ['a', ' ', 'b']) 2)) 2 ≠
      sanitizeInput (.str ['a', ' ', 'b']) 2 := by
  refine ⟨by decide, by decide, by decide⟩

/-- C7 (amended): `sanitizeInput` is idempotent on every string whose
trimmed form fits the cap (truncation not engaged — the failing case is
exactly a truncation that exposes trailing whitespace); for every input,
string or not, the output length never exceeds the cap, and non-string input
yields the empty string. -/
theorem sanitizeInput_props :
    (∀ (x : List Char) (m : Nat), (jsTrim x).length ≤ m →
      sanitizeInput (.str (sanitizeInput (.str x) m)) m = sanitizeInput (.str x) m) ∧
    (∀ (v : JsValue) (m : Nat), (sanitizeInput v m).length ≤ m) ∧
    (∀ (v : JsValue) (m : Nat), v.typeofString = false → sanitizeInput v m = []) := by
  refine ⟨fun x m h => ?_, fun v m => ?_, fun v m hv => ?_⟩
  · show (jsTrim ((jsTrim x).take m)).take m = (jsTrim x).take m
    rw [take_eq_self_of_le _ _ h, jsTrim_idem, take_eq_self_of_le _ _ h]
  · cases v <;> simp [sanitizeInput, List.length_take]
  · cases v <;> first | rfl | simp [JsValue.typeofString] at hv

/-- Witness for C7 (amended): the string `"  hi  "` with cap 5 trims to
`"hi"` (length 2 ≤ 5), where the double application is the identity. -/
theorem sanitizeInput_props_witness :
    (jsTrim [' ', ' ', 'h', 'i', ' ', ' ']).length ≤ 5 ∧
    sanitizeInput (.str (sanitizeInput (.str [' ', ' ', 'h', 'i', ' ', ' ']) 5)) 5 =
      sanitizeInput (.str [' ', ' ', 'h', 'i', ' ', ' ']) 5 ∧
    (sanitizeInput (.num 3) 5).length ≤ 5 ∧
    sanitizeInput (.num 3) 5 = [] :=
  ⟨by decide, sanitizeInput_props.1 [' ', ' ', 'h', 'i', ' ', ' '] 5 (by decide),
   sanitizeInput_props.2.1 (.num 3) 5, sanitizeInput_props.2.2 (.num 3) 5 rfl⟩

/-- C8: for every input value and cap, `validateVerses` returns at most
`maxVerses` entries; on an array input the result is `mkVerse` mapped over
an order-preserving sublist of the input whose members all pass the
string-fields check (so no entry missing either field survives); non-array
input yields `[]`. The model is a total function, matching the source, which
never throws. -/
theorem validateVerses_spec (v : JsValue) (m : Nat) :
    (validateVerses v m).length ≤ m ∧
    (∀ xs, v = .arr xs →
      ∃ ys, List.Sublist ys xs ∧ (∀ y ∈ ys, isValidVerse y = true) ∧
        validateVerses v m = ys.map mkVerse) ∧
    ((∀ xs, v ≠ .arr xs) → validateVerses v m = []) := by
  refine ⟨?_, ?_, ?_⟩
  · cases v <;> simp [validateVerses, List.length_take] <;> omega
  · intro xs hxs
    subst hxs
    refine ⟨(xs.filter isValidVerse).take m, ?_, ?_, ?_⟩
    · exact (List.take_sublist m _).trans (List.filter_sublist xs)
    · intro y hy
      exact (List.mem_filter.mp ((List.take_sublist m _).subset hy)).2
    · simp [validateVerses, List.map_take]
  · intro h
    cases v <;> first | rfl | exact absurd rfl (h _)

/-- Witness for C8 at a concrete malformed array (one valid verse object,
one `null`) and at a non-array input. -/
theorem validateVerses_spec_witness :
    (validateVerses (.arr [JsValue.obj [("reference", .str ['J']),
        ("text", .str ['t'])], JsValue.null]) 10).length ≤ 10 ∧
    (∃ ys, List.Sublist ys [JsValue.obj [("reference", .str ['J']),
        ("text", .str ['t'])], JsValue.null] ∧
      (∀ y ∈ ys, isValidVerse y = true) ∧
      validateVerses (.arr [JsValue.obj [("reference", .str ['J']),
        ("text", .str ['t'])], JsValue.null]) 10 = ys.map mkVerse) ∧
    validateVerses (.num 7) 10 = [] :=
  ⟨(validateVerses_spec _ 10).1, (validateVerses_spec _ 10).2.1 _ rfl,
   (validateVerses_spec (.num 7) 10).2.2 (fun _ h => JsValue.noConfusion h)⟩

/-- C4: the GET poll body is exactly the three-field `safeResponse`
projection of the stored record: for an errored job it is the fixed generic
body — independent of everything stored, so any two records with distinct
internal errors yield the identical client-visible response — and in
general the body depends only on `status` and `result`, so the internal
fields (`started`, `completed`, `retryCount`, `retryAfter`, and the stored
error text) never reach the client. -/
theorem safeResponse_redacts :
    (∀ r : JobRecord, r.status = .error →
      safeResponseOf r =
        { status := .error, result := none, error := some genericErrorMessage }) ∧
    (∀ r1 r2 : JobRecord, r1.status = .error → r2.status = .error →
      safeResponseOf r1 = safeResponseOf r2) ∧
    (∀ r1 r2 : JobRecord, r1.status = r2.status → r1.result = r2.result →
      safeResponseOf r1 = safeResponseOf r2) := by
  have h1 : ∀ r : JobRecord, r.status = .error →
      safeResponseOf r =
        { status := .error, result := none, error := some genericErrorMessage } := by
    intro r hr
    simp [safeResponseOf, hr]
  refine ⟨h1, fun r1 r2 he1 he2 => by rw [h1 r1 he1, h1 r2 he2], ?_⟩
  intro r1 r2 hs hres
  simp [safeResponseOf, hs, hres]

/-- Witness for C4: two errored records with different stored error details,
retry counters and timestamps produce the same generic client body. -/
theorem safeResponse_redacts_witness :
    safeResponseOf
      { status := .error, started := 5, completed := some 9,
        result := none, error := some ['d', 'b', ' ', 'd', 'o', 'w', 'n'],
        retryCount := some 2, retryAfter := some 7 } =
      { status := .error, result := none, error := some genericErrorMessage } ∧
    safeResponseOf
      { status := .error, started := 5, completed := some 9,
        result := none, error := some ['d', 'b', ' ', 'd', 'o', 'w', 'n'],
        retryCount := some 2, retryAfter := some 7 } =
    safeResponseOf
      { status := .error, started := 0, completed := none,
        result := some ['x'], error := some ['o', 'o', 'm'],
        retryCount := none, retryAfter := none } :=
  ⟨safeResponse_redacts.1 _ rfl, safeResponse_redacts.2.1 _ _ rfl rfl⟩

end BibleReflection
